import Mathlib

/-!
Shallow embedding of `alarm.py` (class `MqttAlarm` and its helpers), the MQTT
alarm state machine of this repository, together with theorems checking the
specification's claims about it.

Modelling conventions:
* Python machine integers are `Int`; Python `%` on a positive modulus agrees
  with `Int.emod`.
* The MQTT client is modelled by an explicit list of emitted `Effect`s
  (publish / subscribe / unsubscribe / print), and `threading.Timer` callbacks
  by an explicit list of `Pending` deferred calls returned by each handler.
* External library calls that alarm.py delegates to (paho's
  `mqtt.topic_matches_sub`, `re.search`, `json.loads`, `random.randint`) are
  parameters of the model (`Config.tms`, `Config.reSearch`, `Config.parseJson`,
  and the digit oracle of `deactivateRequest`); the code under verification is
  only what `alarm.py` itself does with their results.
* The handler's strings are unicode text, so `isdigit()` and `int()` are
  Unicode-aware: their ASCII fragment is fixed in `uIsDigit`/`uDigitVal`
  (exactly `'0'..'9'` are ASCII digits, with their usual decimal values) and
  their behavior on non-ASCII characters comes from the runtime's Unicode
  character database, an external data table modelled by the parameters
  `Config.uIsDigitExt`/`Config.uDigitValExt`.
* Python exceptions raised by `MqttAlarm.__deactivate` (the only handler that
  can raise) are modelled with `Except PyErr`.
* A Python 1-character string produced by indexing into a string is modelled
  as a `Char`; `str(i)` of an integer `i` with `0 <= i < 10` is its digit
  character (`pyStrOfDigit`).
-/

/-- `StatusMain` enum of alarm.py. -/
inductive StatusMain : Type
  | UNAVAILABLE
  | UNARMED
  | ARMING
  | ARMED_HOME
  | ARMED_AWAY
  | TRIGGERED
  | ACTIVATED
deriving DecidableEq, Repr

/-- `.name` of a `StatusMain` member, as used by `Status.toJson`. -/
def StatusMain.name : StatusMain → String
  | .UNAVAILABLE => "UNAVAILABLE"
  | .UNARMED => "UNARMED"
  | .ARMING => "ARMING"
  | .ARMED_HOME => "ARMED_HOME"
  | .ARMED_AWAY => "ARMED_AWAY"
  | .TRIGGERED => "TRIGGERED"
  | .ACTIVATED => "ACTIVATED"

/-- class `Status` of alarm.py: main state, countdown, challenge pin.
Python defaults: `main = UNARMED`, `countdown = 0`, `challengePin = ''`. -/
structure Status : Type where
  main : StatusMain
  countdown : Int
  challengePin : String
deriving DecidableEq, Repr

/-- `Status.toJson`: `json.dumps` of the three fields (key order as written in
the constructor call; CPython's dict iteration order is an artifact the claims
do not depend on). -/
def Status.toJson (s : Status) : String :=
  "\x7b\"main\": \"" ++ s.main.name ++ "\", \"countdown\": " ++ toString s.countdown
    ++ ", \"challengePin\": \"" ++ s.challengePin ++ "\"\x7d"

/-- class `EmailConfig` of alarm.py. -/
structure EmailConfig : Type where
  sender : String
  recipients : List String
  subject : String
deriving DecidableEq, Repr

/-- class `Notify` of alarm.py (recipient lists per channel). -/
structure Notify : Type where
  sms : List String
  phonecall : List String
  im : List String
  email : Option EmailConfig
deriving DecidableEq, Repr

/-- class `Trigger` of alarm.py: topics to subscribe, payload regex, notify. -/
structure Trigger : Type where
  topics : List String
  regex : String
  notify : Option Notify
deriving DecidableEq, Repr

/-- class `MqttPublish` of alarm.py: a publish action fired on arm/disarm. -/
structure MqttPublish : Type where
  topic : String
  command : String
deriving DecidableEq, Repr

/-- class `ArmConfig` of alarm.py: start/stop actions and trigger rules of an
armed profile. -/
structure ArmConfig : Type where
  start : List MqttPublish
  stop : List MqttPublish
  triggers : List Trigger
deriving DecidableEq, Repr

/-- An incoming mqtt message (topic and utf-8 decoded payload text). -/
structure MqttMessage : Type where
  topic : String
  payload : String
deriving DecidableEq, Repr

/-- A Python value as produced by `json.loads` (the subset alarm.py can see). -/
inductive PyVal : Type
  | str (s : String)
  | int (n : Int)
  | list (xs : List PyVal)
  | dict (kvs : List (String × PyVal))
  | none

/-- The immutable part of a `MqttAlarm` instance: constructor arguments that
alarm.py never mutates, plus the external library functions it calls. -/
structure Config : Type where
  armingCountdown : Int
  triggeredCountdown : Int
  disarmPin : String
  subscribeTopic : String
  publishTopic : String
  armedAway : ArmConfig
  armedHome : ArmConfig
  notifierMqttPublish : String
  /-- `mqtt.topic_matches_sub sub topic` (paho library, external). -/
  tms : String → String → Bool
  /-- `re.search regex text is not None` (re library, external). -/
  reSearch : String → String → Bool
  /-- outcome of `json.loads text` (json library, external): `none` models a
  raised `ValueError`, `some v` the parsed Python value. -/
  parseJson : String → Option PyVal
  /-- Python's Unicode-aware `unicode.isdigit()` on NON-ASCII characters
  (the runtime's Unicode character database, external data); the ASCII
  fragment is fixed by `uIsDigit` below. -/
  uIsDigitExt : Char → Bool
  /-- The Unicode decimal-digit value `int()` assigns a NON-ASCII character:
  `some v` for a decimal (Nd) digit such as the Arabic-Indic `'٢'`, `none`
  for characters `int()` rejects with `ValueError` — including characters
  like the superskript `'²'` whose `isdigit()` is true but which carry no
  decimal value (external data); the ASCII fragment is fixed by `uDigitVal`
  below. -/
  uDigitValExt : Char → Option Int

/-- The Python exceptions `MqttAlarm.__deactivate` can raise. -/
inductive PyErr : Type
  | indexError
  | typeError
  | valueError
  | keyError
  | attributeError
deriving DecidableEq, Repr

/-- The mutable per-instance state of `MqttAlarm` that the handlers read and
write: `self.status`, `self.sendPin`, `self.armStatus`. -/
structure AlarmState : Type where
  status : Status
  sendPin : String
  armStatus : Option StatusMain
deriving DecidableEq, Repr

/-- The observable side effects of a handler call. `publishNotify` models
`client.publish(notifierMqttPublish, notify.toMqttCommand(...))` in
`__activate`, carrying the data the payload is built from (the payload text
itself is produced by jsonpickle plus an HTTP lookup, both external). -/
inductive Effect : Type
  | publish (topic : String) (payload : String)
  | publishNotify (topic : String) (notify : Option Notify) (message : MqttMessage)
  | subscribe (topic : String)
  | unsubscribe (topic : String)
  | log (msg : String)
deriving DecidableEq, Repr

/-- A deferred `threading.Timer(1.0, ...)` callback scheduled by a handler. -/
inductive Pending : Type
  | timerDoArm (finalArmStatus : Status)
  | timerDoTrigger (message : MqttMessage) (notify : Option Notify)
deriving DecidableEq, Repr

/-- Result of a non-raising handler: new state, effects in order, timers
scheduled. -/
abbrev HandlerResult := AlarmState × List Effect × List Pending

/-- Python `b.find(a) > -1` (substring containment), on char lists. -/
def listContainsSub (needle : List Char) : List Char → Bool
  | [] => needle.isEmpty
  | c :: t => needle.isPrefixOf (c :: t) || listContainsSub needle t

/-- Python `hay.find(needle) > -1`. -/
def strContains (hay needle : String) : Bool :=
  listContainsSub needle.data hay.data

/-- `MqttAlarm.__setStatus`: replace `self.status` and publish its json
encoding on the publish topic. -/
def setStatus (cfg : Config) (s : AlarmState) (st : Status) :
    AlarmState × List Effect :=
  ({ s with status := st }, [.publish cfg.publishTopic st.toJson])

/-- Python `s[i]` on a string (`IndexError` when out of range); the resulting
1-character string is modelled as a `Char`. -/
def strIndex (s : String) (i : Nat) : Except PyErr Char :=
  match s.data.get? i with
  | some c => .ok c
  | Option.none => .error .indexError

/-- Python `v[i]` with an integer index on a `json.loads` value.  Strings give
1-character strings, lists their element (`IndexError` out of range); a dict
indexed by an absent integer key raises `KeyError`; ints and `None` are not
subscriptable (`TypeError`). -/
def pyGetIndex : PyVal → Nat → Except PyErr PyVal
  | .str s, i =>
    match s.data.get? i with
    | some c => .ok (.str (String.singleton c))
    | Option.none => .error .indexError
  | .list xs, i =>
    match xs.get? i with
    | some x => .ok x
    | Option.none => .error .indexError
  | .dict _, _ => .error .keyError
  | .int _, _ => .error .typeError
  | .none, _ => .error .typeError

/-- Python's Unicode-aware `unicode.isdigit()` on one character: among ASCII
characters exactly `'0'..'9'` are digits; outside ASCII the runtime's Unicode
database (`Config.uIsDigitExt`) decides. -/
def uIsDigit (cfg : Config) (c : Char) : Bool :=
  if c.toNat < 128 then c.isDigit else cfg.uIsDigitExt c

/-- The decimal value Python's `int()` assigns one character: among ASCII
characters the digits `'0'..'9'` carry their usual values and everything else
raises; outside ASCII the runtime's Unicode database (`Config.uDigitValExt`)
decides (Unicode Nd digits are accepted, digit-like characters without a
decimal value raise `ValueError`). -/
def uDigitVal (cfg : Config) (c : Char) : Option Int :=
  if c.toNat < 128 then
    (if c.isDigit then some ((c.toNat : Int) - 48) else Option.none)
  else cfg.uDigitValExt c

/-- Python `v.isdigit()`: defined on strings (true iff non-empty and every
character is a digit per the Unicode-aware `isdig`); `AttributeError`
otherwise. -/
def pyIsDigit (isdig : Char → Bool) : PyVal → Except PyErr Bool
  | .str s => .ok (!s.data.isEmpty && s.data.all isdig)
  | _ => .error .attributeError

/-- Base-10 accumulation of the per-character decimal values of a string, or
`none` as soon as some character has no decimal value. -/
def pyIntList (dval : Char → Option Int) (l : List Char) : Option Int :=
  l.foldl
    (fun acc c =>
      match acc, dval c with
      | some a, some v => some (a * 10 + v)
      | _, _ => Option.none)
    (some 0)

/-- Python `int(v)` restricted to what `__deactivate` feeds it: a non-empty
string whose characters all carry decimal values parses to its value, any
other string raises `ValueError`, an int is itself, anything else
`TypeError`.  (Leading/trailing whitespace and signs are not modelled: the
loop only ever applies `int` to values that already passed `isdigit()`.) -/
def pyInt (dval : Char → Option Int) : PyVal → Except PyErr Int
  | .str s =>
    if s.data.isEmpty then .error .valueError
    else
      match pyIntList dval s.data with
      | some n => .ok n
      | Option.none => .error .valueError
  | .int n => .ok n
  | _ => .error .typeError

/-- Python `'pin' in response` for a `json.loads` value: key membership for a
dict, element membership for a list, substring test for a string, `TypeError`
otherwise. -/
def pyContainsPin (v : PyVal) : Except PyErr Bool :=
  match v with
  | .dict kvs => .ok (kvs.any (fun kv => kv.1 == "pin"))
  | .list xs =>
    .ok (xs.any (fun x => match x with | .str s => s == "pin" | _ => false))
  | .str s => .ok (strContains s "pin")
  | _ => .error .typeError

/-- Python `response['pin']` on a dict, used only after `'pin' in response`
returned true for a dict (json object keys are unique). -/
def pyGetPin (v : PyVal) : Except PyErr PyVal :=
  match v with
  | .dict kvs =>
    match kvs.find? (fun kv => kv.1 == "pin") with
    | some kv => .ok kv.2
    | Option.none => .error .keyError
  | _ => .error .typeError

/-- Python `str(i)` for `0 <= i < 10` (the range `(a - b) % 10` lies in): the
single digit character, modelled as a `Char` like all 1-character strings. -/
def pyStrOfDigit (x : Int) : Char :=
  Char.ofNat (48 + x.toNat)

/-- Python `int(c)` of the 1-character string `c`: its decimal value, or
`ValueError` when it has none. -/
def pyIntOfChar (dval : Char → Option Int) (c : Char) : Except PyErr Int :=
  match dval c with
  | some v => .ok v
  | Option.none => .error .valueError

/-- The `for i in range(4)` loop body of `MqttAlarm.__deactivate`, iterated
over the remaining indices.  `.ok true` means all four digit checks passed,
`.ok false` an early `return` (non-digit character or wrong pin), `.error` a
raised exception. -/
def checkPinFrom (cfg : Config) (sendPin : String) (pin : PyVal) :
    List Nat → Except PyErr Bool
  | [] => .ok true
  | i :: rest =>
    match pyGetIndex pin i with
    | .error e => .error e
    | .ok p =>
      match pyIsDigit (uIsDigit cfg) p with
      | .error e => .error e
      | .ok isd =>
        if !isd then .ok false
        else
          match pyInt (uDigitVal cfg) p with
          | .error e => .error e
          | .ok r =>
            match strIndex sendPin i with
            | .error e => .error e
            | .ok sc =>
              match pyIntOfChar (uDigitVal cfg) sc with
              | .error e => .error e
              | .ok c =>
                match strIndex cfg.disarmPin i with
                | .error e => .error e
                | .ok dc =>
                  if pyStrOfDigit ((r - c) % 10) ≠ dc then .ok false
                  else checkPinFrom cfg sendPin pin rest

/-- `MqttAlarm.__doDisarm`: select unsubscribes and stop actions by the
*current* `self.status.main`, emit them, set `self.armStatus = UNARMED` and
set and publish status `UNARMED` (the assignment precedes the publish). -/
def doDisarm (cfg : Config) (s : AlarmState) : HandlerResult :=
  let sel : List Trigger × List MqttPublish :=
    if s.status.main = .ARMED_AWAY then (cfg.armedAway.triggers, cfg.armedAway.stop)
    else if s.status.main = .ARMED_HOME then (cfg.armedHome.triggers, cfg.armedHome.stop)
    else ([], [])
  let unsubs : List Effect :=
    sel.1.flatMap fun t => t.topics.flatMap fun o =>
      [.log "unsubscribing from trigger topic", .unsubscribe o]
  let stops : List Effect := sel.2.map fun p => .publish p.topic p.command
  let s1 : AlarmState := { s with armStatus := some .UNARMED }
  let (s2, pe) := setStatus cfg s1 { main := .UNARMED, countdown := 0, challengePin := "" }
  (s2, [.log "Disarm will unsubscribe from trigger topics"] ++ unsubs ++ stops ++ pe, [])

/-- `MqttAlarm.__deactivate` from the point where `json.loads` has produced
`parsed` (`none` = parse failure): state guard, pin-field lookup, the
four-digit check loop, and on success `self.sendPin = ''` plus `__doDisarm`. -/
def deactivateParsed (cfg : Config) (s : AlarmState) (parsed : Option PyVal) :
    Except PyErr HandlerResult :=
  if s.status.main = .TRIGGERED ∨ s.status.main = .ACTIVATED then
    match parsed with
    | Option.none => .ok (s, [.log "not a valid json text, exiting."], [])
    | some response =>
      match pyContainsPin response with
      | .error e => .error e
      | .ok hasPin =>
        if !hasPin then .ok (s, [.log "pin not found in text. Will not deactivate"], [])
        else
          match pyGetPin response with
          | .error e => .error e
          | .ok pin =>
            match checkPinFrom cfg s.sendPin pin [0, 1, 2, 3] with
            | .error e => .error e
            | .ok passed =>
              if passed then
                let s1 : AlarmState := { s with sendPin := "" }
                let r := doDisarm cfg s1
                .ok (r.1, [.log "pin == disarmPin. Will deactivate"] ++ r.2.1, r.2.2)
              else .ok (s, [.log "Wrong pin! Will not deactivate"], [])
  else
    .ok (s, [.log "Will not attempt deactivation."], [])

/-- The pin string built by `MqttAlarm.__deactivateRequest`'s loop from four
`random.randint(0, 9)` draws (the oracle `digits`). -/
def genPin (digits : Fin 4 → Fin 10) : String :=
  "" ++ toString (digits 0).val ++ toString (digits 1).val
    ++ toString (digits 2).val ++ toString (digits 3).val

/-- `MqttAlarm.__deactivateRequest`: unconditionally (there is no state guard)
store a fresh 4-digit pin in `self.sendPin` and set and publish a status with
the same main and countdown and `challengePin` = the new pin. -/
def deactivateRequest (cfg : Config) (s : AlarmState) (digits : Fin 4 → Fin 10) :
    HandlerResult :=
  let pin := genPin digits
  let s1 : AlarmState := { s with sendPin := pin }
  let (s2, pe) := setStatus cfg s1
    { main := s.status.main, countdown := s.status.countdown, challengePin := pin }
  (s2, [.log "disarmPin, challengePin"] ++ pe, [])

/-- `MqttAlarm.__activate`: log, set and publish status `ACTIVATED` (countdown
0, empty challengePin by the `Status` defaults), and publish the notification
command to the notifier topic. -/
def activate (cfg : Config) (s : AlarmState) (message : MqttMessage)
    (notify : Option Notify) : HandlerResult :=
  let (s1, pe) := setStatus cfg s { main := .ACTIVATED, countdown := 0, challengePin := "" }
  (s1, [.log "Alarm was ACTIVATED"] ++ pe
    ++ [.publishNotify cfg.notifierMqttPublish notify message], [])

/-- `MqttAlarm.__doTrigger`, one invocation: no-op unless still `TRIGGERED`;
with positive countdown schedule the next tick and set and publish
`TRIGGERED` with countdown decremented and `challengePin = self.sendPin`;
at zero, activate. -/
def doTrigger (cfg : Config) (s : AlarmState) (message : MqttMessage)
    (notify : Option Notify) : HandlerResult :=
  if s.status.main ≠ .TRIGGERED then
    (s, [.log "__trigger will stop here"], [])
  else if s.status.countdown > 0 then
    let (s1, pe) := setStatus cfg s
      { main := .TRIGGERED, countdown := s.status.countdown - 1, challengePin := s.sendPin }
    (s1, [.log "__doTrigger countdown"] ++ pe, [.timerDoTrigger message notify])
  else
    let (s1, effs, ps) := activate cfg s message notify
    (s1, [.log "__doTrigger will set alarm to ACTIVATED"] ++ effs, ps)

/-- `MqttAlarm.__trigger`: only from `ARMED_AWAY`/`ARMED_HOME`; set and
publish `TRIGGERED` with `countdown = triggeredCountdown` and
`challengePin = self.sendPin`, then call `__doTrigger` synchronously. -/
def trigger (cfg : Config) (s : AlarmState) (message : MqttMessage)
    (notify : Option Notify) : HandlerResult :=
  if s.status.main = .ARMED_AWAY ∨ s.status.main = .ARMED_HOME then
    let (s1, pe) := setStatus cfg s
      { main := .TRIGGERED, countdown := cfg.triggeredCountdown, challengePin := s.sendPin }
    let (s2, effs, ps) := doTrigger cfg s1 message notify
    (s2, [.log "Triggered!"] ++ pe ++ effs, ps)
  else
    (s, [], [])

/-- The `for t in triggers: for o in t.topics:` subscription loop of
`MqttAlarm.__doArm`'s finalization branch. -/
def subscribeEffects (triggers : List Trigger) : List Effect :=
  triggers.flatMap fun t => t.topics.flatMap fun o =>
    [.log "subscribing to trigger topic", .subscribe o]

/-- The `for p in mqttPublish:` publish loop of `__doArm` finalization. -/
def publishActions (ps : List MqttPublish) : List Effect :=
  ps.map fun p => .publish p.topic p.command

/-- `MqttAlarm.__doArm`, one invocation: no-op unless still `ARMING`; with
positive countdown schedule the next tick and set and publish `ARMING`
decremented; at zero subscribe to the target profile's trigger topics, publish
its start actions, set `self.armStatus` and set and publish the final status
(the `armStatus` assignment precedes the publish). -/
def doArm (cfg : Config) (s : AlarmState) (finalArmStatus : Status) : HandlerResult :=
  if s.status.main ≠ .ARMING then
    (s, [.log "__doArm will stop here"], [])
  else if s.status.countdown > 0 then
    let (s1, pe) := setStatus cfg s
      { main := .ARMING, countdown := s.status.countdown - 1, challengePin := "" }
    (s1, [.log "__doArm countdown"] ++ pe, [.timerDoArm finalArmStatus])
  else
    let sel : List Trigger × List MqttPublish :=
      if finalArmStatus.main = .ARMED_AWAY then (cfg.armedAway.triggers, cfg.armedAway.start)
      else if finalArmStatus.main = .ARMED_HOME then (cfg.armedHome.triggers, cfg.armedHome.start)
      else ([], [])
    let s1 : AlarmState := { s with armStatus := some finalArmStatus.main }
    let (s2, pe) := setStatus cfg s1 finalArmStatus
    (s2, [.log "__doArm will set status because countdown has finished"]
      ++ subscribeEffects sel.1 ++ publishActions sel.2 ++ pe, [])

/-- `MqttAlarm.__arm`: only from `UNARMED`; set and publish `ARMING` with
`countdown = armingCountdown`, then call `__doArm` synchronously. -/
def arm (cfg : Config) (s : AlarmState) (finalArmStatus : Status) : HandlerResult :=
  if s.status.main ≠ .UNARMED then
    (s, [], [])
  else
    let (s1, pe) := setStatus cfg s
      { main := .ARMING, countdown := cfg.armingCountdown, challengePin := "" }
    let (s2, effs, ps) := doArm cfg s1 finalArmStatus
    (s2, pe ++ effs, ps)

/-- `MqttAlarm.__disarm`: `__doDisarm` only from `ARMED_AWAY`, `ARMED_HOME`
or `ARMING`. -/
def disarm (cfg : Config) (s : AlarmState) : HandlerResult :=
  if s.status.main = .ARMED_AWAY ∨ s.status.main = .ARMED_HOME ∨ s.status.main = .ARMING then
    doDisarm cfg s
  else
    (s, [], [])

/-- One iteration of the nested trigger-matching loop of
`MqttAlarm.__on_message`'s event branch, over the flattened (rule, topic)
pairs: on a match, log the trigger and call `__trigger` with the rule's
notify. -/
def stepTriggerMatch (cfg : Config) (message : MqttMessage)
    (acc : HandlerResult) (pr : Trigger × String) : HandlerResult :=
  if cfg.tms pr.2 message.topic && cfg.reSearch pr.1.regex message.payload then
    let (s, effs, ps) := acc
    let (s1, effs1, ps1) := trigger cfg s message pr.1.notify
    (s1, effs ++ [.log "Alarm was triggered"] ++ effs1, ps ++ ps1)
  else
    acc

/-- The `for t in triggers: for o in t.topics:` matching loop of
`__on_message`'s event branch. -/
def processTriggers (cfg : Config) (s : AlarmState) (message : MqttMessage)
    (triggers : List Trigger) : HandlerResult :=
  (triggers.flatMap fun t => t.topics.map fun o => (t, o)).foldl
    (stepTriggerMatch cfg message) (s, [], [])

/-- `MqttAlarm.__on_message`: command dispatch by substring containment in
fixed priority order on the command topic; otherwise the trigger-matching
event branch (rules selected by `self.armStatus`), or a log-only branch while
`ACTIVATED`/`TRIGGERED`.  `digits` is the `random.randint` oracle consumed by
a `DEACTIVATE_REQUEST`. -/
def onMessage (cfg : Config) (s : AlarmState) (message : MqttMessage)
    (digits : Fin 4 → Fin 10) : Except PyErr HandlerResult :=
  let text := message.payload
  if cfg.tms cfg.subscribeTopic message.topic then
    if strContains text "ARM_HOME" then
      .ok (arm cfg s { main := .ARMED_HOME, countdown := 0, challengePin := "" })
    else if strContains text "ARM_AWAY" then
      .ok (arm cfg s { main := .ARMED_AWAY, countdown := 0, challengePin := "" })
    else if strContains text "DEACTIVATE_REQUEST" then
      .ok (deactivateRequest cfg s digits)
    else if strContains text "DEACTIVATE" then
      deactivateParsed cfg s (cfg.parseJson text)
    else if strContains text "DISARM" then
      .ok (disarm cfg s)
    else
      .ok (s, [.log "Unknown command"], [])
  else
    if s.status.main = .ARMED_AWAY ∨ s.status.main = .ARMED_HOME then
      let triggers : List Trigger :=
        if s.armStatus = some .ARMED_AWAY then cfg.armedAway.triggers
        else if s.armStatus = some .ARMED_HOME then cfg.armedHome.triggers
        else []
      .ok (processTriggers cfg s message triggers)
    else if s.status.main = .ACTIVATED ∨ s.status.main = .TRIGGERED then
      .ok (s, [.log "Alarm was triggered"], [])
    else
      .ok (s, [], [])

/-- Firing a scheduled `threading.Timer` callback. -/
def fireTick (cfg : Config) (s : AlarmState) : Pending → HandlerResult
  | .timerDoArm f => doArm cfg s f
  | .timerDoTrigger m n => doTrigger cfg s m n

/-- The armed profile selected by a main state (`armedAway` / `armedHome` /
neither), matching the `if/elif` selections in `__doArm` and `__doDisarm`. -/
def profileOf (cfg : Config) (m : StatusMain) : ArmConfig :=
  if m = .ARMED_AWAY then cfg.armedAway
  else if m = .ARMED_HOME then cfg.armedHome
  else { start := [], stop := [], triggers := [] }

/-- The initial in-memory state of `MqttAlarm.__init__` with the default
`Status(StatusMain.UNARMED, 0)`: `self.sendPin = ''`, `self.armStatus =
None`. -/
def initialState : AlarmState :=
  { status := { main := .UNARMED, countdown := 0, challengePin := "" }
    sendPin := ""
    armStatus := Option.none }

/-- A whole-system configuration: the alarm state plus the multiset of
scheduled, not yet fired timer callbacks. -/
structure Sys : Type where
  alarm : AlarmState
  pending : List Pending
deriving DecidableEq, Repr

/-- One observable step of the running program: delivery of an inbound mqtt
message (with an arbitrary `random.randint` oracle), or the firing of one
scheduled timer callback.  A message whose handling raises (a malformed
`DEACTIVATE`) mutates nothing before the raise point and so induces no step. -/
inductive SStep (cfg : Config) : Sys → Sys → Prop
  | message (σ : Sys) (m : MqttMessage) (digits : Fin 4 → Fin 10)
      (t : AlarmState) (effs : List Effect) (ps : List Pending)
      (h : onMessage cfg σ.alarm m digits = .ok (t, effs, ps)) :
      SStep cfg σ ⟨t, σ.pending ++ ps⟩
  | tick (σ : Sys) (p : Pending) (hp : p ∈ σ.pending)
      (t : AlarmState) (effs : List Effect) (ps : List Pending)
      (h : fireTick cfg σ.alarm p = (t, effs, ps)) :
      SStep cfg σ ⟨t, σ.pending.erase p ++ ps⟩

/-- System states reachable from startup by any interleaving of inbound
messages and timer firings. -/
inductive Reachable (cfg : Config) : Sys → Prop
  | init : Reachable cfg ⟨initialState, []⟩
  | step {σ τ : Sys} : Reachable cfg σ → SStep cfg σ τ → Reachable cfg τ

/-- Drive an arming run: starting from a handler result, fire the (unique)
scheduled `__doArm` timer up to `n` times, accumulating effects. -/
def runArmTicks (cfg : Config) : Nat → HandlerResult → HandlerResult
  | 0, r => r
  | n + 1, (s, effs, ps) =>
    match ps with
    | [.timerDoArm f] =>
      let r := doArm cfg s f
      runArmTicks cfg n (r.1, effs ++ r.2.1, r.2.2)
    | _ => (s, effs, ps)

/-- Fire a list of timer callbacks in sequence, keeping only the state. -/
def fireAll (cfg : Config) (s : AlarmState) : List Pending → AlarmState
  | [] => s
  | p :: ps => fireAll cfg (fireTick cfg s p).1 ps

/-- The character of `s` at index `i` (total version used in statements;
handlers themselves use the raising `strIndex`). -/
def chAt (s : String) (i : Nat) : Char :=
  s.data.getD i '0'

/-- The numeric value of the digit character of `s` at `i`, as an integer. -/
def digitAt (s : String) (i : Nat) : Int :=
  ((chAt s i).toNat : Int) - 48

/-- The specification's disarm-acceptance condition: response `r` against
challenge `c` and secret `d` is accepted iff `(r[i] - c[i]) mod 10 = d[i]`
for every digit position `i` in 0..3. -/
def pinAccepted (r c d : String) : Prop :=
  ∀ i : Fin 4, (digitAt r i - digitAt c i) % 10 = digitAt d i

instance (r c d : String) : Decidable (pinAccepted r c d) := by
  unfold pinAccepted; infer_instance

/-- What one iteration of `__deactivate`'s check loop at position `i`
requires to continue: the response character is a digit and the modular
difference against the challenge prints to the secret's character. -/
def posOK (cfg : Config) (sp p : String) (i : Nat) : Bool :=
  (chAt p i).isDigit &&
    (pyStrOfDigit (((((chAt p i).toNat : Int) - 48) - (((chAt sp i).toNat : Int) - 48)) % 10)
      == chAt cfg.disarmPin i)

/-- An effect list consisting of `print` output only. -/
def onlyLogs (effs : List Effect) : Prop :=
  ∀ e ∈ effs, ∃ m, e = Effect.log m

/-- The flattened `(rule, topic)` pairs the nested trigger-matching loop of
`__on_message` iterates over, in iteration order. -/
def pairsOf (triggers : List Trigger) : List (Trigger × String) :=
  triggers.flatMap fun t => t.topics.map fun o => (t, o)

/-- The boolean match test of one trigger-loop iteration. -/
def matchB (cfg : Config) (message : MqttMessage) (pr : Trigger × String) : Bool :=
  cfg.tms pr.2 message.topic && cfg.reSearch pr.1.regex message.payload

/-- The effects of one non-final `__doArm` tick that left countdown `j`. -/
def armTickEffects (cfg : Config) (j : Int) : List Effect :=
  [.log "__doArm countdown",
   .publish cfg.publishTopic (Status.toJson { main := .ARMING, countdown := j, challengePin := "" })]

/-- The effects of `__doArm`'s finalization branch for target state `tgt`. -/
def armFinalEffects (cfg : Config) (tgt : StatusMain) : List Effect :=
  [.log "__doArm will set status because countdown has finished"]
    ++ subscribeEffects (profileOf cfg tgt).triggers
    ++ publishActions (profileOf cfg tgt).start
    ++ [.publish cfg.publishTopic (Status.toJson { main := tgt, countdown := 0, challengePin := "" })]

/-- The full effect sequence of an arming run with countdown `n` ending in
`tgt`: the `ARMING/n` publish, then ticks publishing `ARMING/n-1 .. ARMING/0`,
then the finalization block ending in the `tgt/0` publish. -/
def armRunEffects (cfg : Config) (n : Nat) (tgt : StatusMain) : List Effect :=
  Effect.publish cfg.publishTopic
      (Status.toJson { main := .ARMING, countdown := (n : Int), challengePin := "" })
    :: (((List.range n).reverse.flatMap fun j => armTickEffects cfg (j : Int))
        ++ armFinalEffects cfg tgt)

/-- The countdown invariant of the alarm state: `countdown` is non-negative,
and zero outside `ARMING`/`TRIGGERED`. -/
def CdInv (s : AlarmState) : Prop :=
  0 ≤ s.status.countdown ∧
    (s.status.main ≠ .ARMING ∧ s.status.main ≠ .TRIGGERED → s.status.countdown = 0)

/-- What is true of every timer callback the program ever schedules: a
`__doArm` timer's target status has countdown 0 (it is `Status(ARMED_x)`). -/
def PendOK : Pending → Prop
  | .timerDoArm f => f.countdown = 0
  | .timerDoTrigger _ _ => True

/-- The whole-system invariant: the countdown invariant plus well-formedness
of every scheduled timer. -/
def SysInv (σ : Sys) : Prop :=
  CdInv σ.alarm ∧ ∀ p ∈ σ.pending, PendOK p

/-- Invariant shape of one handler result. -/
def ResOK (r : HandlerResult) : Prop :=
  CdInv r.1 ∧ ∀ p ∈ r.2.2, PendOK p

/-- `json.loads` on the three concrete DEACTIVATE payload texts the
counterexample runs deliver (each is a valid json object; every other text is
treated as unparsed, which no counterexample run relies on). -/
def cexParse : String → Option PyVal := fun t =>
  if t = "\x7b\"pin\": \"1234\", \"command\": \"DEACTIVATE\"\x7d" then
    some (.dict [("pin", .str "1234"), ("command", .str "DEACTIVATE")])
  else if t = "\x7b\"pin\": \"0\", \"command\": \"DEACTIVATE\"\x7d" then
    some (.dict [("pin", .str "0"), ("command", .str "DEACTIVATE")])
  else if t = "\x7b\"pin\": \"0621\", \"command\": \"DEACTIVATE\"\x7d" then
    some (.dict [("pin", .str "0621"), ("command", .str "DEACTIVATE")])
  else Option.none

/-- A concrete configuration for witness and counterexample runs:
`armingCountdown = 0`, `triggeredCountdown = 2`, disarm secret `"9497"`, one
away-profile rule listening on topic `sensor` with (literal) regex `"a"` and
a start/stop action pair on topic `motion`.  `tms` is equality, which is what
`mqtt.topic_matches_sub` computes on wildcard-free patterns; `reSearch` is
substring search, which is what `re.search` computes for a literal pattern. -/
def cCfg : Config where
  armingCountdown := 0
  triggeredCountdown := 2
  disarmPin := "9497"
  subscribeTopic := "alarm/cmd"
  publishTopic := "alarm/status"
  armedAway :=
    { start := [{ topic := "motion", command := "ON" }]
      stop := [{ topic := "motion", command := "OFF" }]
      triggers := [{ topics := ["sensor"], regex := "a", notify := Option.none }] }
  armedHome := { start := [], stop := [], triggers := [] }
  notifierMqttPublish := "notifier"
  tms := fun a b => a == b
  reSearch := fun r t => strContains t r
  parseJson := cexParse
  uIsDigitExt := fun _ => false
  uDigitValExt := fun _ => Option.none

/-- Digit oracle making `random.randint(0, 9)` return 1, 2, 3, 4 in turn, so
that `__deactivateRequest` generates the challenge `"1234"`. -/
def dInc : Fin 4 → Fin 10 := fun i => ⟨i.val + 1, by omega⟩

/-- Digit oracle for messages that consume no randomness. -/
def d0 : Fin 4 → Fin 10 := fun _ => 0

/-- State after `ARM_AWAY` finalizes from startup under `cCfg`. -/
def sArmedC : AlarmState :=
  { status := { main := .ARMED_AWAY, countdown := 0, challengePin := "" }
    sendPin := ""
    armStatus := some .ARMED_AWAY }

/-- State after a trigger event fires from `sArmedC` under `cCfg` (the
synchronous first `__doTrigger` call has already decremented 2 to 1). -/
def sTrigC : AlarmState :=
  { status := { main := .TRIGGERED, countdown := 1, challengePin := "" }
    sendPin := ""
    armStatus := some .ARMED_AWAY }

/-- `sTrigC` after a `DEACTIVATE_REQUEST` generated challenge `"1234"`. -/
def sTrigReqC : AlarmState :=
  { status := { main := .TRIGGERED, countdown := 1, challengePin := "1234" }
    sendPin := "1234"
    armStatus := some .ARMED_AWAY }

/-- The triggered-countdown timer scheduled by the trigger event in the
counterexample runs. -/
def pTrigC : Pending :=
  .timerDoTrigger { topic := "sensor", payload := "a" } Option.none

/-- State after a `DEACTIVATE_REQUEST` at startup generated challenge
`"1234"` (the handler has no state guard). -/
def sReqUnarmedC : AlarmState :=
  { status := { main := .UNARMED, countdown := 0, challengePin := "1234" }
    sendPin := "1234"
    armStatus := Option.none }

/-- `sReqUnarmedC` after `ARM_AWAY` finalizes: armed, with the stale
challenge still stored in `sendPin`. -/
def sArmedStaleC : AlarmState :=
  { status := { main := .ARMED_AWAY, countdown := 0, challengePin := "" }
    sendPin := "1234"
    armStatus := some .ARMED_AWAY }

/-- `cCfg` with the Unicode database populated for the characters the
Unicode counterexample runs evaluate: the Arabic-Indic decimal digits
`'٠' '١' '٢' '٦'` (isdigit true, with their decimal values, as in Python)
and the superscript `'²'` (isdigit true but no decimal value, so `int()`
raises `ValueError`, as in Python). -/
def uCfg : Config := { cCfg with
  uIsDigitExt := fun c => (c == '٠') || (c == '١') || (c == '٢') || (c == '٦') || (c == '²')
  uDigitValExt := fun c =>
    if c == '٠' then some 0
    else if c == '١' then some 1
    else if c == '٢' then some 2
    else if c == '٦' then some 6
    else Option.none }

theorem reach_sTrigC : Reachable cCfg ⟨sTrigC, [pTrigC]⟩ := by
  have h1 : SStep cCfg ⟨initialState, []⟩ ⟨sArmedC, []⟩ :=
    SStep.message ⟨initialState, []⟩ ⟨"alarm/cmd", "ARM_AWAY"⟩ d0 sArmedC _ [] rfl
  have h2 : SStep cCfg ⟨sArmedC, []⟩ ⟨sTrigC, [pTrigC]⟩ :=
    SStep.message ⟨sArmedC, []⟩ ⟨"sensor", "a"⟩ d0 sTrigC _ [pTrigC] rfl
  exact (Reachable.init.step h1).step h2

theorem reach_sTrigReqC : Reachable cCfg ⟨sTrigReqC, [pTrigC]⟩ := by
  have h : SStep cCfg ⟨sTrigC, [pTrigC]⟩ ⟨sTrigReqC, [pTrigC]⟩ :=
    SStep.message ⟨sTrigC, [pTrigC]⟩ ⟨"alarm/cmd", "DEACTIVATE_REQUEST"⟩ dInc sTrigReqC _ [] rfl
  exact reach_sTrigC.step h

theorem reach_sTrigReqU : Reachable uCfg ⟨sTrigReqC, [pTrigC]⟩ := by
  have h1 : SStep uCfg ⟨initialState, []⟩ ⟨sArmedC, []⟩ :=
    SStep.message ⟨initialState, []⟩ ⟨"alarm/cmd", "ARM_AWAY"⟩ d0 sArmedC _ [] rfl
  have h2 : SStep uCfg ⟨sArmedC, []⟩ ⟨sTrigC, [pTrigC]⟩ :=
    SStep.message ⟨sArmedC, []⟩ ⟨"sensor", "a"⟩ d0 sTrigC _ [pTrigC] rfl
  have h3 : SStep uCfg ⟨sTrigC, [pTrigC]⟩ ⟨sTrigReqC, [pTrigC]⟩ :=
    SStep.message ⟨sTrigC, [pTrigC]⟩ ⟨"alarm/cmd", "DEACTIVATE_REQUEST"⟩ dInc sTrigReqC _ [] rfl
  exact (((Reachable.init.step h1).step h2).step h3)

theorem reach_sArmedStaleC : Reachable cCfg ⟨sArmedStaleC, []⟩ := by
  have h1 : SStep cCfg ⟨initialState, []⟩ ⟨sReqUnarmedC, []⟩ :=
    SStep.message ⟨initialState, []⟩ ⟨"alarm/cmd", "DEACTIVATE_REQUEST"⟩ dInc sReqUnarmedC _ [] rfl
  have h2 : SStep cCfg ⟨sReqUnarmedC, []⟩ ⟨sArmedStaleC, []⟩ :=
    SStep.message ⟨sReqUnarmedC, []⟩ ⟨"alarm/cmd", "ARM_AWAY"⟩ d0 sArmedStaleC _ [] rfl
  exact (Reachable.init.step h1).step h2

/-- C6: a scheduled countdown tick that fires when the live main state no
longer equals its expected state (`ARMING` for an arming tick, `TRIGGERED`
for a triggered tick) changes no state and schedules nothing; hence from a
disarmed (`UNARMED`) state every sequence of subsequently firing ticks
leaves the state untouched. -/
theorem stale_tick_is_noop (cfg : Config) (s : AlarmState) :
    (s.status.main ≠ .ARMING →
      ∀ f, doArm cfg s f = (s, [.log "__doArm will stop here"], []))
    ∧ (s.status.main ≠ .TRIGGERED →
      ∀ m n, doTrigger cfg s m n = (s, [.log "__trigger will stop here"], []))
    ∧ (s.status.main = .UNARMED → ∀ ps, fireAll cfg s ps = s) := by
  refine ⟨fun h f => by simp [doArm, h], fun h m n => by simp [doTrigger, h], fun h ps => ?_⟩
  induction ps with
  | nil => rfl
  | cons p ps ih =>
    cases p with
    | timerDoArm f => simpa [fireAll, fireTick, doArm, h] using ih
    | timerDoTrigger m n => simpa [fireAll, fireTick, doTrigger, h] using ih

theorem stale_tick_is_noop_witness :
    doArm cCfg initialState { main := .ARMED_AWAY, countdown := 0, challengePin := "" }
        = (initialState, [.log "__doArm will stop here"], [])
    ∧ doTrigger cCfg initialState { topic := "sensor", payload := "a" } Option.none
        = (initialState, [.log "__trigger will stop here"], [])
    ∧ fireAll cCfg initialState
        [.timerDoArm { main := .ARMED_AWAY, countdown := 0, challengePin := "" }, pTrigC]
        = initialState :=
  ⟨(stale_tick_is_noop cCfg initialState).1 (by decide) _,
   (stale_tick_is_noop cCfg initialState).2.1 (by decide) _ _,
   (stale_tick_is_noop cCfg initialState).2.2 (by decide) _⟩

/-- C8: an inbound event (non-command topic) arriving while the main state is
`TRIGGERED` or `ACTIVATED` is only logged: the state is unchanged, nothing is
published or subscribed, and no countdown timer is scheduled. -/
theorem triggered_events_only_logged (cfg : Config) (s : AlarmState)
    (message : MqttMessage) (digits : Fin 4 → Fin 10)
    (hT : cfg.tms cfg.subscribeTopic message.topic = false)
    (hS : s.status.main = .ACTIVATED ∨ s.status.main = .TRIGGERED) :
    onMessage cfg s message digits = .ok (s, [.log "Alarm was triggered"], []) := by
  rcases hS with h | h <;> simp [onMessage, hT, h]

theorem triggered_events_only_logged_witness :
    onMessage cCfg sTrigC { topic := "sensor", payload := "a" } d0
      = .ok (sTrigC, [.log "Alarm was triggered"], []) :=
  triggered_events_only_logged cCfg sTrigC { topic := "sensor", payload := "a" } d0
    (by decide) (Or.inr rfl)

/-- C3 counterexample: a `DEACTIVATE_REQUEST` received while `UNARMED` (a
state that is neither `TRIGGERED` nor `ACTIVATED`) is *not* ignored: it
stores a fresh challenge in `sendPin` and publishes the status with
`challengePin` set, changing the state. -/
theorem deactivate_request_unarmed_not_ignored :
    Reachable cCfg ⟨initialState, []⟩
    ∧ initialState.status.main = .UNARMED
    ∧ onMessage cCfg initialState ⟨"alarm/cmd", "DEACTIVATE_REQUEST"⟩ dInc
        = .ok (sReqUnarmedC,
            [.log "disarmPin, challengePin",
             .publish cCfg.publishTopic
               (Status.toJson { main := .UNARMED, countdown := 0, challengePin := "1234" })], [])
    ∧ sReqUnarmedC ≠ initialState :=
  ⟨Reachable.init, rfl, rfl, by decide⟩

theorem digit_toString_spec :
    ∀ d : Fin 10, (toString d.val).length = 1 ∧ (toString d.val).data.all Char.isDigit = true := by
  decide

theorem genPin_spec (digits : Fin 4 → Fin 10) :
    (genPin digits).length = 4 ∧ (genPin digits).data.all Char.isDigit = true := by
  unfold genPin
  have h0 := digit_toString_spec (digits 0)
  have h1 := digit_toString_spec (digits 1)
  have h2 := digit_toString_spec (digits 2)
  have h3 := digit_toString_spec (digits 3)
  constructor
  · simp [String.length_append, h0.1, h1.1, h2.1, h3.1]
  · simp only [String.data_append, List.all_append, h0.2, h1.2, h2.2, h3.2]
    rfl

/-- C3 amended: `DEACTIVATE_REQUEST` has no state guard and is processed in
*every* state: it generates a fresh 4-ASCII-digit challenge, stores it as the
outstanding challenge (`sendPin`), and publishes the current status (main and
countdown unchanged) with `challengePin` set to that challenge. -/
theorem deactivate_request_any_state (cfg : Config) (s : AlarmState)
    (digits : Fin 4 → Fin 10) :
    deactivateRequest cfg s digits =
      ({ status := { main := s.status.main, countdown := s.status.countdown,
                     challengePin := genPin digits },
         sendPin := genPin digits, armStatus := s.armStatus },
       [.log "disarmPin, challengePin",
        .publish cfg.publishTopic
          (Status.toJson { main := s.status.main, countdown := s.status.countdown,
                           challengePin := genPin digits })], [])
    ∧ (genPin digits).length = 4 ∧ (genPin digits).data.all Char.isDigit = true :=
  ⟨rfl, genPin_spec digits⟩

/-- C10: the `DEACTIVATE` handler is not total at the public interface: in
the reachable state `sTrigC` (main state `TRIGGERED`, challenge never issued
so `sendPin` is the empty string of `__init__`), a `DEACTIVATE` payload whose
`pin` field is the well-formed 4-digit string `"1234"` makes the digit loop
index into the empty challenge string and raise `IndexError`. -/
theorem deactivate_crashes_on_empty_challenge :
    Reachable cCfg ⟨sTrigC, [pTrigC]⟩
    ∧ sTrigC.status.main = .TRIGGERED
    ∧ sTrigC.sendPin = ""
    ∧ cCfg.parseJson "\x7b\"pin\": \"1234\", \"command\": \"DEACTIVATE\"\x7d"
        = some (.dict [("pin", .str "1234"), ("command", .str "DEACTIVATE")])
    ∧ onMessage cCfg sTrigC
        ⟨"alarm/cmd", "\x7b\"pin\": \"1234\", \"command\": \"DEACTIVATE\"\x7d"⟩ d0
        = .error .indexError :=
  ⟨reach_sTrigC, rfl, rfl, rfl, rfl⟩

/-- C4 counterexample: the claim "a pin that is not exactly 4 ASCII digit
characters aborts silently (no state change, no raise)" fails in three ways
on reachable states.  In `sTrigReqC` (main `TRIGGERED`, outstanding challenge
`"1234"`, secret `"9497"`): (1) the 1-character pin `"0"` raises `IndexError`
(its all-digit prefix passes the first comparison and the loop indexes past
its end); (2) the Arabic-Indic pin `"٠٦٢١"` — length 4 but not ASCII digits —
passes Python's Unicode-aware `isdigit()` and `int()`, is accepted, and
disarms (a state change); (3) the superscript pin `"²²²²"` passes `isdigit()`
but has no decimal value, so `int()` raises `ValueError`. -/
theorem deactivate_malformed_not_silent :
    Reachable cCfg ⟨sTrigReqC, [pTrigC]⟩
    ∧ sTrigReqC.status.main = .TRIGGERED
    ∧ cCfg.parseJson "\x7b\"pin\": \"0\", \"command\": \"DEACTIVATE\"\x7d"
        = some (.dict [("pin", .str "0"), ("command", .str "DEACTIVATE")])
    ∧ ("0" : String).length ≠ 4
    ∧ onMessage cCfg sTrigReqC
        ⟨"alarm/cmd", "\x7b\"pin\": \"0\", \"command\": \"DEACTIVATE\"\x7d"⟩ d0
        = .error .indexError
    ∧ Reachable uCfg ⟨sTrigReqC, [pTrigC]⟩
    ∧ ("٠٦٢١" : String).length = 4
    ∧ ("٠٦٢١" : String).data.all Char.isDigit = false
    ∧ (∃ t effs,
        deactivateParsed uCfg sTrigReqC (some (.dict [("pin", .str "٠٦٢١")]))
          = .ok (t, effs, [])
        ∧ t.status.main = .UNARMED ∧ t ≠ sTrigReqC)
    ∧ ("²²²²" : String).length = 4
    ∧ ("²²²²" : String).data.all Char.isDigit = false
    ∧ deactivateParsed uCfg sTrigReqC (some (.dict [("pin", .str "²²²²")]))
        = .error .valueError := by
  refine ⟨reach_sTrigReqC, rfl, rfl, by decide, rfl, reach_sTrigReqU, by decide, by decide,
    ⟨{ status := { main := .UNARMED, countdown := 0, challengePin := "" },
       sendPin := "", armStatus := some .UNARMED }, _, rfl, rfl, by decide⟩,
    by decide, by decide, rfl⟩

/-- C2 (code bug): in the reachable state `sTrigReqC` (main `TRIGGERED`,
challenge `"1234"`, remembered profile `ARMED_AWAY` whose rule subscribes
topic `"sensor"` and whose stop action is `motion/OFF`), the accepted
`DEACTIVATE` response `"0621"` (secret `"9497"`) clears the challenge and
reaches `UNARMED`, but — because `__doDisarm` selects the profile by the
*current* main state `TRIGGERED` rather than by the remembered `armStatus` —
emits no unsubscribe and does not publish the stop action, contradicting the
claim. -/
theorem accepted_deactivate_skips_profile_teardown :
    Reachable cCfg ⟨sTrigReqC, [pTrigC]⟩
    ∧ cCfg.armedAway.stop = [{ topic := "motion", command := "OFF" }]
    ∧ cCfg.armedAway.triggers.flatMap Trigger.topics = ["sensor"]
    ∧ onMessage cCfg sTrigReqC
        ⟨"alarm/cmd", "\x7b\"pin\": \"0621\", \"command\": \"DEACTIVATE\"\x7d"⟩ d0
        = .ok ({ status := { main := .UNARMED, countdown := 0, challengePin := "" },
                 sendPin := "", armStatus := some .UNARMED },
               [.log "pin == disarmPin. Will deactivate",
                .log "Disarm will unsubscribe from trigger topics",
                .publish cCfg.publishTopic
                  (Status.toJson { main := .UNARMED, countdown := 0, challengePin := "" })], [])
    ∧ (∀ o, Effect.unsubscribe o ∉
        [Effect.log "pin == disarmPin. Will deactivate",
         Effect.log "Disarm will unsubscribe from trigger topics",
         Effect.publish cCfg.publishTopic
           (Status.toJson { main := .UNARMED, countdown := 0, challengePin := "" })])
    ∧ Effect.publish "motion" "OFF" ∉
        [Effect.log "pin == disarmPin. Will deactivate",
         Effect.log "Disarm will unsubscribe from trigger topics",
         Effect.publish cCfg.publishTopic
           (Status.toJson { main := .UNARMED, countdown := 0, challengePin := "" })] := by
  refine ⟨reach_sTrigReqC, rfl, rfl, rfl, fun o => ?_, by decide⟩
  simp

/-- C7 counterexample: in the reachable state `sArmedStaleC` (armed away
after an earlier `DEACTIVATE_REQUEST` left the stale challenge `"1234"` in
`sendPin`, which no disarm path clears), a matching trigger event moves the
status to `TRIGGERED` with `challengePin = "1234"`, not left empty as the
claim states. -/
theorem trigger_challenge_pin_not_empty :
    Reachable cCfg ⟨sArmedStaleC, []⟩
    ∧ sArmedStaleC.status.main = .ARMED_AWAY
    ∧ (∃ t effs ps,
        onMessage cCfg sArmedStaleC ⟨"sensor", "a"⟩ d0 = .ok (t, effs, ps)
        ∧ t.status.main = .TRIGGERED ∧ t.status.challengePin = "1234"
        ∧ t.status.challengePin ≠ "") := by
  refine ⟨reach_sArmedStaleC, rfl,
    ⟨{ status := { main := .TRIGGERED, countdown := 1, challengePin := "1234" },
       sendPin := "1234", armStatus := some .ARMED_AWAY }, _, [pTrigC],
     rfl, rfl, rfl, by decide⟩⟩

theorem doArm_sel (cfg : Config) (m : StatusMain) :
    (if m = .ARMED_AWAY then (cfg.armedAway.triggers, cfg.armedAway.start)
     else if m = .ARMED_HOME then (cfg.armedHome.triggers, cfg.armedHome.start)
     else ([], [])) = ((profileOf cfg m).triggers, (profileOf cfg m).start) := by
  cases m <;> rfl

theorem runArmTicks_acc (cfg : Config) (k : Nat) :
    ∀ (s : AlarmState) (e0 e : List Effect) (ps : List Pending),
    runArmTicks cfg k (s, e0 ++ e, ps) =
      ((runArmTicks cfg k (s, e, ps)).1,
       e0 ++ (runArmTicks cfg k (s, e, ps)).2.1,
       (runArmTicks cfg k (s, e, ps)).2.2) := by
  induction k with
  | zero => intro s e0 e ps; rfl
  | succ k ih =>
    intro s e0 e ps
    match ps with
    | [] => rfl
    | [.timerDoArm f] =>
      simp only [runArmTicks]
      rw [List.append_assoc]
      exact ih _ _ _ _
    | .timerDoTrigger m n :: rest => rfl
    | .timerDoArm f :: q :: rest => rfl

theorem doArm_run_eq (cfg : Config) (tgt : StatusMain) :
    ∀ (k : Nat) (s : AlarmState),
    s.status = { main := .ARMING, countdown := (k : Int), challengePin := "" } →
    runArmTicks cfg k (doArm cfg s { main := tgt, countdown := 0, challengePin := "" }) =
      ({ s with status := { main := tgt, countdown := 0, challengePin := "" },
                armStatus := some tgt },
       ((List.range k).reverse.flatMap fun j => armTickEffects cfg (j : Int))
         ++ armFinalEffects cfg tgt,
       []) := by
  intro k
  induction k with
  | zero =>
    intro s hs
    simp only [runArmTicks, doArm, hs]
    norm_num
    rw [doArm_sel]
    simp [armFinalEffects, setStatus]
  | succ k ih =>
    intro s hs
    have hcast : ((k + 1 : Nat) : Int) - 1 = (k : Int) := by push_cast; ring
    have hpos : ((0 : Int) < ((k + 1 : Nat) : Int)) := by positivity
    simp only [doArm, hs]
    norm_num [hpos]
    simp only [setStatus, runArmTicks, hcast]
    rw [runArmTicks_acc]
    rw [ih { s with status := { main := .ARMING, countdown := (k : Int), challengePin := "" } } rfl]
    simp [List.range_succ, armTickEffects]

/-- C5: a full arming run issued from `UNARMED` with `armingCountdown = n`
publishes, in order, `ARMING/n`, `ARMING/n-1`, …, `ARMING/0`, and then the
requested armed state with countdown 0; the finalization subscribes every
trigger-rule topic of the target profile, publishes every start action, and
has recorded the profile in the remembered `armStatus` marker (the final
state carries it) before the armed status publish, which is the last effect
(`armRunEffects` lists the whole effect sequence in order). -/
theorem arming_run_full (cfg : Config) (n : Nat) (s : AlarmState) (tgt : StatusMain)
    (hn : cfg.armingCountdown = (n : Int))
    (hs : s.status.main = .UNARMED)
    (ht : tgt = .ARMED_HOME ∨ tgt = .ARMED_AWAY) :
    runArmTicks cfg n (arm cfg s { main := tgt, countdown := 0, challengePin := "" }) =
      ({ s with status := { main := tgt, countdown := 0, challengePin := "" },
                armStatus := some tgt },
       armRunEffects cfg n tgt, []) := by
  simp only [arm, hs]
  norm_num
  simp only [setStatus, hn]
  rw [runArmTicks_acc]
  rw [doArm_run_eq cfg tgt n
    { s with status := { main := .ARMING, countdown := (n : Int), challengePin := "" } } rfl]
  simp [armRunEffects]

theorem arming_run_full_witness :
    runArmTicks { cCfg with armingCountdown := 3 } 3
        (arm { cCfg with armingCountdown := 3 } initialState
          { main := .ARMED_AWAY, countdown := 0, challengePin := "" }) =
      ({ initialState with
           status := { main := .ARMED_AWAY, countdown := 0, challengePin := "" },
           armStatus := some .ARMED_AWAY },
       armRunEffects { cCfg with armingCountdown := 3 } 3 .ARMED_AWAY, []) :=
  arming_run_full { cCfg with armingCountdown := 3 } 3 initialState .ARMED_AWAY rfl rfl
    (Or.inr rfl)

theorem char_digit_bounds (c : Char) (h : c.isDigit = true) :
    48 ≤ c.toNat ∧ c.toNat ≤ 57 := by
  simp [Char.isDigit] at h
  exact h

theorem ofNat_digit_toNat (n : Nat) (h : n < 10) :
    (Char.ofNat (48 + n)).toNat = 48 + n := by
  interval_cases n <;> decide

theorem pyStrOfDigit_eq_iff (x : Int) (hx0 : 0 ≤ x) (hx : x < 10) (d : Char)
    (hd : d.isDigit = true) :
    pyStrOfDigit x = d ↔ x = (d.toNat : Int) - 48 := by
  have hb := char_digit_bounds d hd
  have hn : x.toNat < 10 := by omega
  have hxe : (x.toNat : Int) = x := Int.toNat_of_nonneg hx0
  unfold pyStrOfDigit
  constructor
  · intro h
    have := congrArg Char.toNat h
    rw [ofNat_digit_toNat _ hn] at this
    omega
  · intro h
    have h48 : 48 + x.toNat = d.toNat := by omega
    rw [h48, Char.ofNat_toNat]

theorem get?_chAt (s : String) (i : Nat) (h : i < s.length) :
    s.data.get? i = some (chAt s i) := by
  unfold chAt
  rw [List.getD_eq_get s.data '0' h]
  exact List.get?_eq_get h

theorem chAt_isDigit (s : String) (i : Nat) (h : i < s.length)
    (hall : s.data.all Char.isDigit = true) : (chAt s i).isDigit = true := by
  unfold chAt
  rw [List.getD_eq_get s.data '0' h]
  exact List.all_eq_true.mp hall _ (List.get_mem s.data i h)

theorem singleton_data (c : Char) : (String.singleton c).data = [c] := by
  simp [String.singleton, String.push]

theorem pyIsDigit_singleton (isdig : Char → Bool) (c : Char) :
    pyIsDigit isdig (.str (String.singleton c)) = .ok (isdig c) := by
  simp [pyIsDigit, singleton_data]

theorem pyInt_singleton (dval : Char → Option Int) (c : Char) (v : Int)
    (h : dval c = some v) :
    pyInt dval (.str (String.singleton c)) = .ok v := by
  simp [pyInt, singleton_data, pyIntList, h]

theorem isDigit_ascii (c : Char) (h : c.isDigit = true) : c.toNat < 128 := by
  have := char_digit_bounds c h
  omega

theorem uIsDigit_ascii (cfg : Config) (c : Char) (h : c.toNat < 128) :
    uIsDigit cfg c = c.isDigit := by
  unfold uIsDigit
  rw [if_pos h]

theorem uDigitVal_ascii_digit (cfg : Config) (c : Char) (h : c.isDigit = true) :
    uDigitVal cfg c = some ((c.toNat : Int) - 48) := by
  have hb := char_digit_bounds c h
  unfold uDigitVal
  rw [if_pos (by omega), if_pos h]

theorem checkPinFrom_eq (cfg : Config) (sp p : String) :
    ∀ l : List Nat,
    (∀ i ∈ l, i < p.length ∧ (chAt p i).toNat < 128 ∧ i < sp.length
      ∧ (chAt sp i).isDigit = true ∧ i < cfg.disarmPin.length) →
    checkPinFrom cfg sp (.str p) l = .ok (l.all (posOK cfg sp p)) := by
  intro l
  induction l with
  | nil => intro _; rfl
  | cons i rest ih =>
    intro hl
    obtain ⟨hp, hpa, hsp, hspd, hdp⟩ := hl i (List.mem_cons_self i rest)
    have hrec := ih (fun j hj => hl j (List.mem_cons_of_mem i hj))
    rw [checkPinFrom]
    simp only [pyGetIndex, get?_chAt p i hp, pyIsDigit_singleton, uIsDigit_ascii cfg _ hpa]
    by_cases hd : (chAt p i).isDigit = true
    · simp only [hd, Bool.not_true, Bool.false_eq_true, if_false,
        pyInt_singleton (uDigitVal cfg) _ _ (uDigitVal_ascii_digit cfg _ hd),
        strIndex, get?_chAt sp i hsp, get?_chAt cfg.disarmPin i hdp,
        pyIntOfChar, uDigitVal_ascii_digit cfg _ hspd, if_true,
        List.all_cons, posOK, Bool.true_and]
      have hxx : (((chAt p i).toNat : Int) - 48 - (((chAt sp i).toNat : Int) - 48))
          = ((chAt p i).toNat : Int) - ((chAt sp i).toNat : Int) := by ring
      simp only [hxx]
      split
      · next heq =>
        have hne : (pyStrOfDigit ((((chAt p i).toNat : Int) - ((chAt sp i).toNat : Int)) % 10)
            == chAt cfg.disarmPin i) = false := beq_eq_false_iff_ne.mpr heq
        rw [hne]
        simp
      · next heq =>
        have he : pyStrOfDigit ((((chAt p i).toNat : Int) - ((chAt sp i).toNat : Int)) % 10)
            = chAt cfg.disarmPin i := not_not.mp heq
        have hbe : (pyStrOfDigit ((((chAt p i).toNat : Int) - ((chAt sp i).toNat : Int)) % 10)
            == chAt cfg.disarmPin i) = true := beq_iff_eq.mpr he
        rw [hbe]
        simpa using hrec
    · have hd2 : (chAt p i).isDigit = false := by
        cases h : (chAt p i).isDigit
        · rfl
        · exact absurd h hd
      simp only [hd2, Bool.not_false, if_true, List.all_cons, posOK, Bool.false_and]

theorem posOK_iff (cfg : Config) (sp p : String) (i : Nat)
    (hd1 : (chAt p i).isDigit = true) (hd2 : (chAt cfg.disarmPin i).isDigit = true) :
    posOK cfg sp p i = true ↔ (digitAt p i - digitAt sp i) % 10 = digitAt cfg.disarmPin i := by
  unfold posOK digitAt
  rw [hd1]
  simp only [Bool.true_and, beq_iff_eq]
  have h0 : (0 : Int) ≤ (((chAt p i).toNat : Int) - 48 - (((chAt sp i).toNat : Int) - 48)) % 10 :=
    Int.emod_nonneg _ (by norm_num)
  have h10 : (((chAt p i).toNat : Int) - 48 - (((chAt sp i).toNat : Int) - 48)) % 10 < 10 :=
    Int.emod_lt_of_pos _ (by norm_num)
  constructor
  · intro h
    have := (pyStrOfDigit_eq_iff _ h0 h10 _ hd2).mp h
    omega
  · intro h
    exact (pyStrOfDigit_eq_iff _ h0 h10 _ hd2).mpr (by omega)

theorem pinAccepted_iff_all (cfg : Config) (sp p : String)
    (hpd : p.data.all Char.isDigit = true) (hpl : p.length = 4)
    (hdd : cfg.disarmPin.data.all Char.isDigit = true) (hdl : cfg.disarmPin.length = 4) :
    pinAccepted p sp cfg.disarmPin ↔ [0, 1, 2, 3].all (posOK cfg sp p) = true := by
  have c0 := posOK_iff cfg sp p 0 (chAt_isDigit _ _ (by omega) hpd) (chAt_isDigit _ _ (by omega) hdd)
  have c1 := posOK_iff cfg sp p 1 (chAt_isDigit _ _ (by omega) hpd) (chAt_isDigit _ _ (by omega) hdd)
  have c2 := posOK_iff cfg sp p 2 (chAt_isDigit _ _ (by omega) hpd) (chAt_isDigit _ _ (by omega) hdd)
  have c3 := posOK_iff cfg sp p 3 (chAt_isDigit _ _ (by omega) hpd) (chAt_isDigit _ _ (by omega) hdd)
  simp only [List.all_cons, List.all_nil, Bool.and_true, Bool.and_eq_true]
  rw [c0, c1, c2, c3]
  unfold pinAccepted
  constructor
  · intro h
    exact ⟨h 0, h 1, h 2, h 3⟩
  · rintro ⟨h0, h1, h2, h3⟩ i
    fin_cases i <;> assumption

/-- C1: with an outstanding 4-digit challenge (`sendPin`), a configured
4-digit secret, and a `DEACTIVATE` payload carrying a 4-ASCII-digit pin `R`,
received while `TRIGGERED` or `ACTIVATED`: the response is accepted (the
state reaches `UNARMED` with the challenge cleared) iff
`(R[i] - C[i]) mod 10 = D[i]` for every position `i` in 0..3, and a rejected
response changes no state and only logs.  The witness instantiates the
claim's scenario: secret `"9497"`, challenge `"1234"`, `"0621"` accepted and
`"0000"` rejected. -/
theorem deactivate_acceptance (cfg : Config) (s : AlarmState) (R : String)
    (hmain : s.status.main = .TRIGGERED ∨ s.status.main = .ACTIVATED)
    (hCl : s.sendPin.length = 4) (hCd : s.sendPin.data.all Char.isDigit = true)
    (hDl : cfg.disarmPin.length = 4) (hDd : cfg.disarmPin.data.all Char.isDigit = true)
    (hRl : R.length = 4) (hRd : R.data.all Char.isDigit = true) :
    ∃ t effs,
      deactivateParsed cfg s (some (.dict [("pin", .str R)])) = .ok (t, effs, [])
      ∧ (pinAccepted R s.sendPin cfg.disarmPin ↔ (t.status.main = .UNARMED ∧ t.sendPin = ""))
      ∧ (¬ pinAccepted R s.sendPin cfg.disarmPin → t = s ∧ onlyLogs effs) := by
  have hcpf := checkPinFrom_eq cfg s.sendPin R [0, 1, 2, 3] (by
    intro i hi
    have h4 : i < 4 := by
      simp only [List.mem_cons, List.mem_singleton, List.not_mem_nil] at hi
      rcases hi with rfl | rfl | rfl | hi
      · omega
      · omega
      · omega
      · simp at hi; omega
    exact ⟨by omega, isDigit_ascii _ (chAt_isDigit _ _ (by omega) hRd), by omega,
      chAt_isDigit _ _ (by omega) hCd, by omega⟩)
  rw [deactivateParsed, if_pos hmain]
  simp only [pyContainsPin, pyGetPin, List.any_cons, List.any_nil, beq_self_eq_true,
    Bool.or_false, Bool.not_true, Bool.false_eq_true, if_false, List.find?]
  simp only [hcpf]
  by_cases hacc : pinAccepted R s.sendPin cfg.disarmPin
  · have hall : [0, 1, 2, 3].all (posOK cfg s.sendPin R) = true :=
      (pinAccepted_iff_all cfg s.sendPin R hRd hRl hDd hDl).mp hacc
    rw [hall]
    refine ⟨_, _, rfl, ?_, ?_⟩
    · exact iff_of_true hacc ⟨rfl, rfl⟩
    · intro h; exact absurd hacc h
  · have hall : [0, 1, 2, 3].all (posOK cfg s.sendPin R) = false := by
      cases h : [0, 1, 2, 3].all (posOK cfg s.sendPin R)
      · rfl
      · exact absurd ((pinAccepted_iff_all cfg s.sendPin R hRd hRl hDd hDl).mpr h) hacc
    rw [hall]
    refine ⟨s, _, rfl, ?_, ?_⟩
    · refine iff_of_false hacc ?_
      rintro ⟨h1, -⟩
      rcases hmain with hm | hm <;> rw [hm] at h1 <;> cases h1
    · intro _
      refine ⟨rfl, ?_⟩
      intro e he
      simp only [List.mem_singleton] at he
      exact ⟨_, he⟩

theorem checkPinFrom_stops_false (cfg : Config) (sp p : String) :
    ∀ (l1 : List Nat) (j : Nat) (l2 : List Nat),
    (∀ i ∈ l1, i < p.length ∧ i < sp.length ∧ i < cfg.disarmPin.length
      ∧ (uIsDigit cfg (chAt p i) = true → (uDigitVal cfg (chAt p i)).isSome = true
          ∧ (uDigitVal cfg (chAt sp i)).isSome = true)) →
    j < p.length → uIsDigit cfg (chAt p j) = false →
    checkPinFrom cfg sp (.str p) (l1 ++ j :: l2) = .ok false := by
  intro l1
  induction l1 with
  | nil =>
    intro j l2 _ hjp hjd
    rw [List.nil_append, checkPinFrom]
    simp only [pyGetIndex, get?_chAt p j hjp, pyIsDigit_singleton, hjd, Bool.not_false, if_true]
  | cons i rest ih =>
    intro j l2 hl hjp hjd
    obtain ⟨hip, hisp, hidp, hval⟩ := hl i (List.mem_cons_self i rest)
    rw [List.cons_append, checkPinFrom]
    simp only [pyGetIndex, get?_chAt p i hip, pyIsDigit_singleton]
    by_cases hd : uIsDigit cfg (chAt p i) = true
    · obtain ⟨hv1, hv2⟩ := hval hd
      obtain ⟨v1, hv1e⟩ := Option.isSome_iff_exists.mp hv1
      obtain ⟨v2, hv2e⟩ := Option.isSome_iff_exists.mp hv2
      simp only [hd, Bool.not_true, Bool.false_eq_true, if_false,
        pyInt_singleton (uDigitVal cfg) _ _ hv1e,
        strIndex, get?_chAt sp i hisp, get?_chAt cfg.disarmPin i hidp,
        pyIntOfChar, hv2e]
      split
      · rfl
      · exact ih j l2 (fun q hq => hl q (List.mem_cons_of_mem i hq)) hjp hjd
    · have hd2 : uIsDigit cfg (chAt p i) = false := by
        cases h : uIsDigit cfg (chAt p i)
        · rfl
        · exact absurd h hd
      simp only [hd2, Bool.not_false, if_true]

/-- C4 amended: while `TRIGGERED`/`ACTIVATED`, a `DEACTIVATE` whose payload
fails to parse, or parses to an object without a `pin` field, or (given an
outstanding 4-digit challenge and 4-character secret) carries a pin string of
length at least 4 having, among its first 4 characters, a position that fails
Python's Unicode-aware `isdigit()` while every earlier position carries a
Unicode decimal value that `int()` accepts, aborts silently: no state change,
no raise, only log output.  (The original claim's "any pin that is not
exactly 4 ASCII digits aborts silently" is refuted by
`deactivate_malformed_not_silent`: an all-digit pin shorter than 4 characters
can raise `IndexError`.  The Unicode hypotheses are necessary: a non-ASCII
decimal pin such as the Arabic-Indic `"٠٦٢١"` is not 4 ASCII digits yet
passes `isdigit()` and `int()` and can disarm, and a digit-like character
without a decimal value such as `'²'` passes `isdigit()` but makes `int()`
raise `ValueError`; pins longer than 4 are judged on their first 4
characters only.) -/
theorem deactivate_malformed_silent (cfg : Config) (s : AlarmState) (parsed : Option PyVal)
    (hmain : s.status.main = .TRIGGERED ∨ s.status.main = .ACTIVATED)
    (h : parsed = Option.none
       ∨ (∃ kvs, parsed = some (.dict kvs) ∧ kvs.any (fun kv => kv.1 == "pin") = false)
       ∨ (∃ kvs pinStr, parsed = some (.dict kvs)
            ∧ pyGetPin (.dict kvs) = .ok (.str pinStr)
            ∧ 4 ≤ pinStr.length
            ∧ (∃ j, j < 4 ∧ uIsDigit cfg (chAt pinStr j) = false
                ∧ ∀ i, i < j → (uDigitVal cfg (chAt pinStr i)).isSome = true)
            ∧ s.sendPin.length = 4 ∧ s.sendPin.data.all Char.isDigit = true
            ∧ cfg.disarmPin.length = 4)) :
    ∃ effs, deactivateParsed cfg s parsed = .ok (s, effs, []) ∧ onlyLogs effs := by
  rcases h with rfl | ⟨kvs, rfl, hnp⟩ |
    ⟨kvs, pinStr, rfl, hget, hlen, ⟨j, hj, hjd, hvals⟩, hCl, hCd, hDl⟩
  · rw [deactivateParsed, if_pos hmain]
    refine ⟨_, rfl, ?_⟩
    intro e he
    simp only [List.mem_singleton] at he
    exact ⟨_, he⟩
  · rw [deactivateParsed, if_pos hmain]
    simp only [pyContainsPin, hnp, Bool.not_false, if_true]
    refine ⟨_, rfl, ?_⟩
    intro e he
    simp only [List.mem_singleton] at he
    exact ⟨_, he⟩
  · obtain ⟨kv0, hf, hkv⟩ : ∃ kv0, kvs.find? (fun kv => kv.1 == "pin") = some kv0
        ∧ kv0.2 = PyVal.str pinStr := by
      cases hf : kvs.find? (fun kv => kv.1 == "pin") with
      | none => rw [pyGetPin, hf] at hget; cases hget
      | some kv0 =>
        rw [pyGetPin, hf] at hget
        injection hget with h2
        exact ⟨kv0, rfl, h2⟩
    have hp := @List.find?_some _ (fun kv => kv.1 == "pin") kv0 kvs hf
    have hany : kvs.any (fun kv => kv.1 == "pin") = true :=
      List.any_eq_true.mpr ⟨kv0, List.mem_of_find?_eq_some hf, hp⟩
    have hcond : ∀ i, i < j →
        (i < pinStr.length ∧ i < s.sendPin.length ∧ i < cfg.disarmPin.length
          ∧ (uIsDigit cfg (chAt pinStr i) = true →
              (uDigitVal cfg (chAt pinStr i)).isSome = true
              ∧ (uDigitVal cfg (chAt s.sendPin i)).isSome = true)) := by
      intro i hij
      refine ⟨by omega, by omega, by omega, fun _ => ⟨hvals i hij, ?_⟩⟩
      rw [uDigitVal_ascii_digit cfg _ (chAt_isDigit _ _ (by omega) hCd)]
      rfl
    have hjp : j < pinStr.length := by omega
    have hstop : checkPinFrom cfg s.sendPin (.str pinStr) [0, 1, 2, 3] = .ok false := by
      interval_cases j
      · exact checkPinFrom_stops_false cfg s.sendPin pinStr [] 0 [1, 2, 3]
          (fun q hq => absurd hq (List.not_mem_nil q)) hjp hjd
      · exact checkPinFrom_stops_false cfg s.sendPin pinStr [0] 1 [2, 3]
          (fun q hq => hcond q (by
            simp only [List.mem_singleton] at hq; omega)) hjp hjd
      · exact checkPinFrom_stops_false cfg s.sendPin pinStr [0, 1] 2 [3]
          (fun q hq => hcond q (by
            simp only [List.mem_cons, List.mem_singleton, List.not_mem_nil, or_false] at hq
            rcases hq with rfl | rfl <;> omega)) hjp hjd
      · exact checkPinFrom_stops_false cfg s.sendPin pinStr [0, 1, 2] 3 []
          (fun q hq => hcond q (by
            simp only [List.mem_cons, List.mem_singleton, List.not_mem_nil, or_false] at hq
            rcases hq with rfl | rfl | rfl <;> omega)) hjp hjd
    rw [deactivateParsed, if_pos hmain]
    simp only [pyContainsPin, hany, Bool.not_true, Bool.false_eq_true, if_false,
      pyGetPin, hf, hkv, hstop]
    refine ⟨_, rfl, ?_⟩
    intro e he
    simp only [List.mem_singleton] at he
    exact ⟨_, he⟩

theorem deactivate_acceptance_witness :
    pinAccepted "0621" sTrigReqC.sendPin cCfg.disarmPin
    ∧ ¬ pinAccepted "0000" sTrigReqC.sendPin cCfg.disarmPin
    ∧ (∃ t effs,
        deactivateParsed cCfg sTrigReqC (some (.dict [("pin", .str "0621")])) = .ok (t, effs, [])
        ∧ (pinAccepted "0621" sTrigReqC.sendPin cCfg.disarmPin
            ↔ (t.status.main = .UNARMED ∧ t.sendPin = ""))
        ∧ (¬ pinAccepted "0621" sTrigReqC.sendPin cCfg.disarmPin → t = sTrigReqC ∧ onlyLogs effs))
    ∧ (∃ t effs,
        deactivateParsed cCfg sTrigReqC (some (.dict [("pin", .str "0000")])) = .ok (t, effs, [])
        ∧ (pinAccepted "0000" sTrigReqC.sendPin cCfg.disarmPin
            ↔ (t.status.main = .UNARMED ∧ t.sendPin = ""))
        ∧ (¬ pinAccepted "0000" sTrigReqC.sendPin cCfg.disarmPin → t = sTrigReqC ∧ onlyLogs effs)) :=
  ⟨by decide, by decide,
   deactivate_acceptance cCfg sTrigReqC "0621" (Or.inl rfl) rfl (by decide) rfl (by decide)
     rfl (by decide),
   deactivate_acceptance cCfg sTrigReqC "0000" (Or.inl rfl) rfl (by decide) rfl (by decide)
     rfl (by decide)⟩

theorem deactivate_malformed_silent_witness :
    ∃ effs,
      deactivateParsed cCfg sTrigReqC (some (.dict [("pin", .str "12a4")]))
        = .ok (sTrigReqC, effs, []) ∧ onlyLogs effs :=
  deactivate_malformed_silent cCfg sTrigReqC (some (.dict [("pin", .str "12a4")]))
    (Or.inl rfl)
    (Or.inr (Or.inr ⟨[("pin", .str "12a4")], "12a4", rfl, rfl, by decide,
      ⟨2, by decide, by decide, by decide⟩, rfl, by decide, rfl⟩))

theorem foldl_triggers_nomatch (cfg : Config) (message : MqttMessage) :
    ∀ (l : List (Trigger × String)) (acc : HandlerResult),
    (∀ pr ∈ l, matchB cfg message pr = false) →
    l.foldl (stepTriggerMatch cfg message) acc = acc := by
  intro l
  induction l with
  | nil => intro acc _; rfl
  | cons pr rest ih =>
    intro acc h
    have h1 := h pr (List.mem_cons_self pr rest)
    unfold matchB at h1
    rw [List.foldl_cons]
    rw [show stepTriggerMatch cfg message acc pr = acc from by
      unfold stepTriggerMatch; rw [h1]; simp]
    exact ih acc (fun q hq => h q (List.mem_cons_of_mem pr hq))

theorem foldl_triggers_inactive (cfg : Config) (message : MqttMessage) :
    ∀ (l : List (Trigger × String)) (s : AlarmState) (effs : List Effect) (ps : List Pending),
    s.status.main ≠ .ARMED_AWAY → s.status.main ≠ .ARMED_HOME →
    ∃ logs, l.foldl (stepTriggerMatch cfg message) (s, effs, ps) = (s, effs ++ logs, ps)
      ∧ onlyLogs logs := by
  intro l
  induction l with
  | nil =>
    intro s effs ps _ _
    exact ⟨[], by simp, by intro e he; cases he⟩
  | cons pr rest ih =>
    intro s effs ps h1 h2
    rw [List.foldl_cons]
    by_cases hm : (cfg.tms pr.2 message.topic && cfg.reSearch pr.1.regex message.payload) = true
    · have hstep : stepTriggerMatch cfg message (s, effs, ps) pr
          = (s, effs ++ [.log "Alarm was triggered"], ps) := by
        unfold stepTriggerMatch
        rw [hm]
        simp only [if_true]
        rw [show trigger cfg s message pr.1.notify = (s, [], []) from by
          unfold trigger; rw [if_neg (by rintro (h | h); exact h1 h; exact h2 h)]]
        simp
      rw [hstep]
      obtain ⟨logs, hfold, hlogs⟩ := ih s (effs ++ [.log "Alarm was triggered"]) ps h1 h2
      refine ⟨[.log "Alarm was triggered"] ++ logs, ?_, ?_⟩
      · rw [hfold, List.append_assoc]
      · intro e he
        rcases List.mem_append.mp he with he | he
        · simp only [List.mem_singleton] at he; exact ⟨_, he⟩
        · exact hlogs e he
    · have hm' : (cfg.tms pr.2 message.topic && cfg.reSearch pr.1.regex message.payload) = false := by
        cases h : (cfg.tms pr.2 message.topic && cfg.reSearch pr.1.regex message.payload)
        · rfl
        · exact absurd h hm
      rw [show stepTriggerMatch cfg message (s, effs, ps) pr = (s, effs, ps) from by
        unfold stepTriggerMatch; rw [hm']; simp]
      exact ih s effs ps h1 h2

/-- C7 amended: an inbound event received while armed, whose topic matches a
topic pattern of a rule of the remembered armed profile (the first matching
(rule, topic) pair of the loop) and whose payload matches that rule's regex,
transitions the status to `TRIGGERED` with `countdown = triggeredCountdown`
(published; the synchronous first tick then publishes the decrement) and
`challengePin` set to the currently stored challenge value `sendPin` — which
is empty in any run with no prior `DEACTIVATE_REQUEST`, but not in general
(`trigger_challenge_pin_not_empty`) — and schedules the triggered countdown
carrying that rule's NotifySpec. -/
theorem armed_event_triggers (cfg : Config) (s : AlarmState) (message : MqttMessage)
    (digits : Fin 4 → Fin 10) (t0 : Trigger) (o0 : String)
    (pre post : List (Trigger × String))
    (hTms : cfg.tms cfg.subscribeTopic message.topic = false)
    (hMain : s.status.main = .ARMED_AWAY ∨ s.status.main = .ARMED_HOME)
    (hArm : s.armStatus = some s.status.main)
    (hPairs : pairsOf (profileOf cfg s.status.main).triggers = pre ++ (t0, o0) :: post)
    (hPre : ∀ pr ∈ pre, matchB cfg message pr = false)
    (hMatch : matchB cfg message (t0, o0) = true)
    (hTc : 0 < cfg.triggeredCountdown) :
    ∃ t effs,
      onMessage cfg s message digits = .ok (t, effs, [.timerDoTrigger message t0.notify])
      ∧ t.status = { main := .TRIGGERED, countdown := cfg.triggeredCountdown - 1,
                     challengePin := s.sendPin }
      ∧ Effect.publish cfg.publishTopic
          (Status.toJson { main := .TRIGGERED, countdown := cfg.triggeredCountdown,
                           challengePin := s.sendPin }) ∈ effs := by
  have hsel :
      (if s.armStatus = some .ARMED_AWAY then cfg.armedAway.triggers
       else if s.armStatus = some .ARMED_HOME then cfg.armedHome.triggers
       else []) = (profileOf cfg s.status.main).triggers := by
    rcases hMain with hm | hm <;> rw [hArm, hm] <;> simp [profileOf]
  have hGate : (s.status.main = .ARMED_AWAY ∨ s.status.main = .ARMED_HOME) := hMain
  have hNot : ¬ (cfg.tms cfg.subscribeTopic message.topic = true) := by rw [hTms]; simp
  rw [onMessage]
  simp only [hTms, Bool.false_eq_true, if_false, if_pos hGate]
  rw [processTriggers]
  show ∃ t effs,
    Except.ok ((pairsOf (if s.armStatus = some .ARMED_AWAY then cfg.armedAway.triggers
       else if s.armStatus = some .ARMED_HOME then cfg.armedHome.triggers
       else [])).foldl (stepTriggerMatch cfg message) (s, [], [])) = _ ∧ _ ∧ _
  rw [hsel, hPairs, List.foldl_append,
    foldl_triggers_nomatch cfg message pre (s, ([] : List Effect), ([] : List Pending)) hPre,
    List.foldl_cons]
  have hMatch' : (cfg.tms o0 message.topic && cfg.reSearch t0.regex message.payload) = true := hMatch
  have hstep : stepTriggerMatch cfg message (s, [], []) (t0, o0) =
      (let r := trigger cfg s message t0.notify
       (r.1, [Effect.log "Alarm was triggered"] ++ r.2.1, r.2.2)) := by
    unfold stepTriggerMatch
    rw [hMatch']
    simp
  rw [hstep]
  have htrig : trigger cfg s message t0.notify =
      ({ s with status := { main := .TRIGGERED, countdown := cfg.triggeredCountdown - 1,
                            challengePin := s.sendPin } },
       [Effect.log "Triggered!",
        Effect.publish cfg.publishTopic
          (Status.toJson { main := .TRIGGERED, countdown := cfg.triggeredCountdown,
                           challengePin := s.sendPin }),
        Effect.log "__doTrigger countdown",
        Effect.publish cfg.publishTopic
          (Status.toJson { main := .TRIGGERED, countdown := cfg.triggeredCountdown - 1,
                           challengePin := s.sendPin })],
       [.timerDoTrigger message t0.notify]) := by
    unfold trigger
    rw [if_pos hMain]
    simp only [setStatus, doTrigger]
    norm_num [hTc]
  rw [htrig]
  obtain ⟨logs, hfold, hlogs⟩ := foldl_triggers_inactive cfg message post
    { s with status := { main := .TRIGGERED, countdown := cfg.triggeredCountdown - 1,
                         challengePin := s.sendPin } }
    ([Effect.log "Alarm was triggered"] ++
      [Effect.log "Triggered!",
       Effect.publish cfg.publishTopic
         (Status.toJson { main := .TRIGGERED, countdown := cfg.triggeredCountdown,
                          challengePin := s.sendPin }),
       Effect.log "__doTrigger countdown",
       Effect.publish cfg.publishTopic
         (Status.toJson { main := .TRIGGERED, countdown := cfg.triggeredCountdown - 1,
                          challengePin := s.sendPin })])
    [.timerDoTrigger message t0.notify] (by simp) (by simp)
  refine ⟨{ s with status := { main := .TRIGGERED, countdown := cfg.triggeredCountdown - 1,
                               challengePin := s.sendPin } },
    ([Effect.log "Alarm was triggered"] ++
      [Effect.log "Triggered!",
       Effect.publish cfg.publishTopic
         (Status.toJson { main := .TRIGGERED, countdown := cfg.triggeredCountdown,
                          challengePin := s.sendPin }),
       Effect.log "__doTrigger countdown",
       Effect.publish cfg.publishTopic
         (Status.toJson { main := .TRIGGERED, countdown := cfg.triggeredCountdown - 1,
                          challengePin := s.sendPin })]) ++ logs, ?_, ?_, ?_⟩
  · exact congrArg Except.ok hfold
  · rfl
  · simp

theorem armed_event_triggers_witness :
    ∃ t effs,
      onMessage cCfg sArmedC ⟨"sensor", "a"⟩ d0
        = .ok (t, effs,
            [.timerDoTrigger ⟨"sensor", "a"⟩
              ({ topics := ["sensor"], regex := "a", notify := Option.none } : Trigger).notify])
      ∧ t.status = { main := .TRIGGERED, countdown := cCfg.triggeredCountdown - 1,
                     challengePin := sArmedC.sendPin }
      ∧ Effect.publish cCfg.publishTopic
          (Status.toJson { main := .TRIGGERED, countdown := cCfg.triggeredCountdown,
                           challengePin := sArmedC.sendPin }) ∈ effs :=
  armed_event_triggers cCfg sArmedC ⟨"sensor", "a"⟩ d0
    { topics := ["sensor"], regex := "a", notify := Option.none } "sensor" [] []
    (by decide) (Or.inl rfl) rfl rfl
    (fun pr hpr => absurd hpr (List.not_mem_nil pr)) (by decide) (by decide)


theorem inv_doDisarm (cfg : Config) (s : AlarmState) : ResOK (doDisarm cfg s) := by
  refine ⟨⟨?_, ?_⟩, ?_⟩
  · simp [doDisarm, setStatus, CdInv]
  · intro _; simp [doDisarm, setStatus]
  · intro p hp; simp [doDisarm, setStatus] at hp

theorem inv_activate (cfg : Config) (s : AlarmState) (m : MqttMessage)
    (n : Option Notify) : ResOK (activate cfg s m n) := by
  refine ⟨⟨?_, ?_⟩, ?_⟩
  · simp [activate, setStatus, CdInv]
  · intro _; simp [activate, setStatus]
  · intro p hp; simp [activate, setStatus] at hp

theorem inv_doTrigger (cfg : Config) (s : AlarmState) (m : MqttMessage)
    (n : Option Notify) (hs : CdInv s) : ResOK (doTrigger cfg s m n) := by
  unfold doTrigger
  split
  · exact ⟨hs, by intro p hp; cases hp⟩
  · split
    · next hcd =>
      refine ⟨⟨?_, ?_⟩, ?_⟩
      · simp only [setStatus]; omega
      · intro h; exact absurd rfl h.2
      · intro p hp
        simp only [setStatus, List.mem_singleton] at hp
        rw [hp]; trivial
    · exact inv_activate cfg s m n

theorem inv_doArm (cfg : Config) (s : AlarmState) (f : Status) (hs : CdInv s)
    (hf : f.countdown = 0) : ResOK (doArm cfg s f) := by
  unfold doArm
  split
  · exact ⟨hs, by intro p hp; cases hp⟩
  · split
    · next hcd =>
      refine ⟨⟨?_, ?_⟩, ?_⟩
      · simp only [setStatus]; omega
      · intro h; exact absurd rfl h.1
      · intro p hp
        simp only [setStatus, List.mem_singleton] at hp
        rw [hp]; exact hf
    · refine ⟨⟨?_, fun _ => ?_⟩, ?_⟩
      · simp only [setStatus]; omega
      · simp only [setStatus]; exact hf
      · intro p hp; simp [setStatus] at hp

theorem inv_trigger (cfg : Config) (s : AlarmState) (m : MqttMessage)
    (n : Option Notify) (hs : CdInv s) (hT : 0 ≤ cfg.triggeredCountdown) :
    ResOK (trigger cfg s m n) := by
  unfold trigger
  split
  · have h1 : CdInv { s with status :=
        { main := .TRIGGERED, countdown := cfg.triggeredCountdown,
          challengePin := s.sendPin } } := by
      refine ⟨hT, ?_⟩
      intro h; exact absurd rfl h.2
    have := inv_doTrigger cfg { s with status :=
        { main := .TRIGGERED, countdown := cfg.triggeredCountdown,
          challengePin := s.sendPin } } m n h1
    simp only [setStatus]
    exact ⟨this.1, this.2⟩
  · exact ⟨hs, by intro p hp; cases hp⟩

theorem inv_arm (cfg : Config) (s : AlarmState) (f : Status) (hs : CdInv s)
    (hA : 0 ≤ cfg.armingCountdown) (hf : f.countdown = 0) : ResOK (arm cfg s f) := by
  unfold arm
  split
  · exact ⟨hs, by intro p hp; cases hp⟩
  · have h1 : CdInv { s with status :=
        { main := .ARMING, countdown := cfg.armingCountdown,
          challengePin := "" } } := by
      refine ⟨hA, ?_⟩
      intro h; exact absurd rfl h.1
    have := inv_doArm cfg { s with status :=
        { main := .ARMING, countdown := cfg.armingCountdown,
          challengePin := "" } } f h1 hf
    simp only [setStatus]
    exact ⟨this.1, this.2⟩

theorem inv_deactivateRequest (cfg : Config) (s : AlarmState)
    (digits : Fin 4 → Fin 10) (hs : CdInv s) : ResOK (deactivateRequest cfg s digits) := by
  refine ⟨⟨?_, ?_⟩, ?_⟩
  · simpa [deactivateRequest, setStatus, CdInv] using hs.1
  · intro h
    simp only [deactivateRequest, setStatus] at h ⊢
    exact hs.2 h
  · intro p hp; simp [deactivateRequest, setStatus] at hp

theorem inv_disarm (cfg : Config) (s : AlarmState) (hs : CdInv s) :
    ResOK (disarm cfg s) := by
  unfold disarm
  split
  · exact inv_doDisarm cfg s
  · exact ⟨hs, by intro p hp; cases hp⟩

theorem inv_deactivateParsed (cfg : Config) (s : AlarmState) (parsed : Option PyVal)
    (r : HandlerResult) (hs : CdInv s)
    (h : deactivateParsed cfg s parsed = .ok r) : ResOK r := by
  unfold deactivateParsed at h
  split at h
  · cases parsed with
    | none =>
      simp only at h
      injection h with h
      rw [← h]
      exact ⟨hs, by intro p hp; cases hp⟩
    | some response =>
      simp only at h
      cases hc : pyContainsPin response with
      | error e => rw [hc] at h; cases h
      | ok hasPin =>
        rw [hc] at h
        cases hasPin with
        | false =>
          simp only [Bool.not_false, if_true] at h
          injection h with h
          rw [← h]
          exact ⟨hs, by intro p hp; cases hp⟩
        | true =>
          simp only [Bool.not_true, Bool.false_eq_true, if_false] at h
          cases hg : pyGetPin response with
          | error e => rw [hg] at h; cases h
          | ok pin =>
            rw [hg] at h
            dsimp only at h
            cases hcp : checkPinFrom cfg s.sendPin pin [0, 1, 2, 3] with
            | error e => rw [hcp] at h; cases h
            | ok passed =>
              rw [hcp] at h
              dsimp only at h
              cases passed with
              | true =>
                simp only [if_true] at h
                injection h with h
                rw [← h]
                have hd := inv_doDisarm cfg { s with sendPin := "" }
                exact ⟨hd.1, hd.2⟩
              | false =>
                simp only [Bool.false_eq_true, if_false] at h
                injection h with h
                rw [← h]
                exact ⟨hs, by intro p hp; cases hp⟩
  · injection h with h
    rw [← h]
    exact ⟨hs, by intro p hp; cases hp⟩

theorem inv_foldTriggers (cfg : Config) (message : MqttMessage) :
    ∀ (l : List (Trigger × String)) (acc : HandlerResult),
    0 ≤ cfg.triggeredCountdown →
    CdInv acc.1 → (∀ p ∈ acc.2.2, PendOK p) →
    ResOK (l.foldl (stepTriggerMatch cfg message) acc) := by
  intro l
  induction l with
  | nil => intro acc _ h1 h2; exact ⟨h1, h2⟩
  | cons pr rest ih =>
    intro acc hT h1 h2
    rw [List.foldl_cons]
    unfold stepTriggerMatch
    split
    · have ht := inv_trigger cfg acc.1 message pr.1.notify h1 hT
      exact ih _ hT ht.1 (by
        intro p hp
        rcases List.mem_append.mp hp with hp | hp
        · exact h2 p hp
        · exact ht.2 p hp)
    · exact ih acc hT h1 h2

theorem inv_onMessage (cfg : Config) (s : AlarmState) (message : MqttMessage)
    (digits : Fin 4 → Fin 10) (r : HandlerResult)
    (hA : 0 ≤ cfg.armingCountdown) (hT : 0 ≤ cfg.triggeredCountdown)
    (hs : CdInv s) (h : onMessage cfg s message digits = .ok r) : ResOK r := by
  unfold onMessage at h
  dsimp only at h
  split at h
  · split at h
    · injection h with h; rw [← h]; exact inv_arm cfg s _ hs hA rfl
    · split at h
      · injection h with h; rw [← h]; exact inv_arm cfg s _ hs hA rfl
      · split at h
        · injection h with h; rw [← h]; exact inv_deactivateRequest cfg s digits hs
        · split at h
          · exact inv_deactivateParsed cfg s _ r hs h
          · split at h
            · injection h with h; rw [← h]; exact inv_disarm cfg s hs
            · injection h with h; rw [← h]; exact ⟨hs, by intro p hp; cases hp⟩
  · split at h
    · injection h with h
      rw [← h]
      exact inv_foldTriggers cfg message _ (s, [], []) hT hs (by intro p hp; cases hp)
    · split at h
      · injection h with h; rw [← h]; exact ⟨hs, by intro p hp; cases hp⟩
      · injection h with h; rw [← h]; exact ⟨hs, by intro p hp; cases hp⟩

theorem inv_fireTick (cfg : Config) (s : AlarmState) (p : Pending)
    (hs : CdInv s) (hp : PendOK p) : ResOK (fireTick cfg s p) := by
  cases p with
  | timerDoArm f => exact inv_doArm cfg s f hs hp
  | timerDoTrigger m n => exact inv_doTrigger cfg s m n hs

theorem reachable_sysinv (cfg : Config)
    (hA : 0 ≤ cfg.armingCountdown) (hT : 0 ≤ cfg.triggeredCountdown) :
    ∀ σ : Sys, Reachable cfg σ → SysInv σ := by
  intro σ h
  induction h with
  | init =>
    refine ⟨⟨le_refl 0, fun _ => rfl⟩, ?_⟩
    intro p hp; cases hp
  | @step σ0 τ0 hr hstep ih =>
    obtain ⟨hc, hpall⟩ := ih
    cases hstep with
    | message m digits t effs ps hmsg =>
      have hres := inv_onMessage cfg σ0.alarm m digits (t, effs, ps) hA hT hc hmsg
      refine ⟨hres.1, ?_⟩
      intro p hp
      rcases List.mem_append.mp hp with hp | hp
      · exact hpall p hp
      · exact hres.2 p hp
    | tick p hpmem t effs ps htick =>
      have hres : ResOK (t, effs, ps) := by
        rw [← htick]
        exact inv_fireTick cfg σ0.alarm p hc (hpall p hpmem)
      refine ⟨hres.1, ?_⟩
      intro q hq
      rcases List.mem_append.mp hq with hq | hq
      · exact hpall q (List.mem_of_mem_erase hq)
      · exact hres.2 q hq

/-- C9: for every system state reachable from the initial `UNARMED` state by
any sequence of commands, events, and countdown ticks (with the configured
countdown durations non-negative), `countdown >= 0` holds, and countdown is
zero whenever the main state is neither `ARMING` nor `TRIGGERED`. -/
theorem countdown_invariant (cfg : Config)
    (hA : 0 ≤ cfg.armingCountdown) (hT : 0 ≤ cfg.triggeredCountdown)
    (σ : Sys) (h : Reachable cfg σ) :
    0 ≤ σ.alarm.status.countdown ∧
      (σ.alarm.status.main ≠ .ARMING ∧ σ.alarm.status.main ≠ .TRIGGERED →
        σ.alarm.status.countdown = 0) :=
  (reachable_sysinv cfg hA hT σ h).1

theorem countdown_invariant_witness :
    0 ≤ (⟨sTrigC, [pTrigC]⟩ : Sys).alarm.status.countdown ∧
      ((⟨sTrigC, [pTrigC]⟩ : Sys).alarm.status.main ≠ .ARMING ∧
        (⟨sTrigC, [pTrigC]⟩ : Sys).alarm.status.main ≠ .TRIGGERED →
        (⟨sTrigC, [pTrigC]⟩ : Sys).alarm.status.countdown = 0) :=
  countdown_invariant cCfg (by decide) (by decide) ⟨sTrigC, [pTrigC]⟩ reach_sTrigC
